import Mathlib

/-!
# Verification of the StockDashboard synthetic market-data engine

Shallow embedding of `src/StockDashboard.jsx`: the price-history generator
(`generatePriceHistory`), the static quote store (`MOCK_STOCKS`), the lookup
path (`fetchData` of the `useStockData` hook), the chart timeframe slicer
(`filteredData` of `PriceChart`) and the table filter/sort pipeline
(`processedStocks` of `StockTable`).

Modelling conventions:
* JS numbers are embedded as `ℚ` (all arithmetic in the source stays well
  within exact double range, and the claims under study are order/equality
  facts that do not depend on binary rounding).
* `Math.random()` is an ambient non-deterministic source; it is embedded as an
  explicit stream `rand : ℕ → ℚ` of draws, consumed left to right in source
  call order (five draws per generated day).  Validity (`0 ≤ rand n < 1`) is an
  explicit hypothesis where a claim needs it.
* `new Date()` / day arithmetic: a calendar date is its epoch-day index
  (`ℤ`, day 0 = 1970-01-01, a Thursday), so JS `getDay()` is `(d + 4) % 7`
  with 0 = Sunday and 6 = Saturday.  The source formats the date to a display
  label (`toLocaleDateString`) when building a bar; the embedding keeps the
  underlying day index, which is what the ordering claims are about.
-/

namespace StockDashboard

/-- JS `String.prototype.toUpperCase()` on the ASCII strings this program
handles: uppercase each character. -/
def toUpperJS (s : String) : String := ⟨s.data.map Char.toUpper⟩

/-- JS `String.prototype.toLowerCase()` on the ASCII strings this program
handles: lowercase each character. -/
def toLowerJS (s : String) : String := ⟨s.data.map Char.toLower⟩

/-- JS `Date.prototype.getDay()` for an epoch-day index: 0 = Sunday … 6 = Saturday. -/
def getDay (d : ℤ) : ℤ := (d + 4) % 7

/-- The weekend test of `generatePriceHistory`:
`date.getDay() === 0 || date.getDay() === 6`. -/
def isWeekend (d : ℤ) : Prop := getDay d = 0 ∨ getDay d = 6

instance (d : ℤ) : Decidable (isWeekend d) :=
  inferInstanceAs (Decidable (_ ∨ _))

/-- `parseFloat(x.toFixed(2))`: rounding to 2 decimal places. -/
def round2 (x : ℚ) : ℚ := (round (x * 100) : ℤ) / 100

/-- The volume line of `generatePriceHistory`:
`Math.floor(Math.random() * 80000000 + 20000000)` applied to one draw `r`. -/
def volumeOf (r : ℚ) : ℕ := (⌊r * 80000000 + 20000000⌋).toNat

/-- The daily-return line: `(Math.random() - 0.48) * 0.06` applied to draw `r`. -/
def dailyReturnOf (r : ℚ) : ℚ := (r - 0.48) * 0.06

/-- One generated OHLCV record (`history.push({...})` in the source).
`date` is the underlying epoch-day index of the formatted label. -/
structure Bar where
  date : ℤ
  price : ℚ
  open_ : ℚ
  high : ℚ
  low : ℚ
  volume : ℕ
deriving DecidableEq

/-- The record pushed for one kept day: `price` is the already-updated walk
value; draws `k+1 … k+4` feed open, high, low and volume, in source order. -/
def mkBar (rand : ℕ → ℚ) (date : ℤ) (price : ℚ) (k : ℕ) : Bar :=
  { date := date
    price := round2 price
    open_ := round2 (price * (1 + (rand (k + 1) - 0.5) * 0.01))
    high := round2 (price * (1 + rand (k + 2) * 0.02))
    low := round2 (price * (1 - rand (k + 3) * 0.02))
    volume := volumeOf (rand (k + 4)) }

/-- The loop body of `generatePriceHistory`, indexed by the loop counter `i`
(counting down from `days` to `0`; the date handled at counter value `i` is
`now - i`).  `price` is the running walk value and `k` the index of the next
unconsumed random draw (a kept day consumes five draws: return, open, high,
low, volume, in source order). -/
def genAux (rand : ℕ → ℚ) (now : ℤ) : ℕ → ℚ → ℕ → List Bar
  | 0, price, k =>
      if isWeekend now then []
      else [mkBar rand now (price * (1 + dailyReturnOf (rand k))) k]
  | i + 1, price, k =>
      if isWeekend (now - (i + 1 : ℤ)) then genAux rand now i price k
      else
        mkBar rand (now - (i + 1 : ℤ)) (price * (1 + dailyReturnOf (rand k))) k ::
          genAux rand now i (price * (1 + dailyReturnOf (rand k))) (k + 5)

/-- `generatePriceHistory(symbol, basePrice, days)` (source default `days = 90`):
iterates calendar days from `days` ago through today (`now`), skipping
weekends, driving a multiplicative random walk.  `symbol` is accepted and
unused, exactly as in the source. -/
def generatePriceHistory (_symbol : String) (basePrice : ℚ) (days : ℕ)
    (now : ℤ) (rand : ℕ → ℚ) : List Bar :=
  genAux rand now days basePrice 0

/-- Number of weekdays among the calendar days `now - i, …, now`
(the days visited by the generator loop). -/
def countWeekdays (now : ℤ) : ℕ → ℕ
  | 0 => if isWeekend now then 0 else 1
  | i + 1 => (if isWeekend (now - (i + 1 : ℤ)) then 0 else 1) + countWeekdays now i

/-- One value of the `MOCK_STOCKS` table: the per-symbol quote record.
`marketCap` and `volume` are stored as magnitude-suffixed strings, exactly as
in the source. -/
structure Quote where
  name : String
  price : ℚ
  change : ℚ
  changePercent : ℚ
  marketCap : String
  pe : ℚ
  volume : String
  sector : String
deriving DecidableEq

/-- `MOCK_STOCKS`: the static reference dataset, in source (insertion) order.
Key order and every field value are transcribed verbatim. -/
def MOCK_STOCKS : List (String × Quote) :=
  [ ("AAPL", { name := "Apple Inc.", price := 189.3, change := 1.24, changePercent := 0.66, marketCap := "2.94T", pe := 29.4, volume := "58.2M", sector := "Technology" })
  , ("MSFT", { name := "Microsoft Corp.", price := 415.2, change := -2.1, changePercent := -0.5, marketCap := "3.08T", pe := 34.7, volume := "22.1M", sector := "Technology" })
  , ("GOOGL", { name := "Alphabet Inc.", price := 172.8, change := 3.45, changePercent := 2.04, marketCap := "2.17T", pe := 24.1, volume := "19.8M", sector := "Technology" })
  , ("AMZN", { name := "Amazon.com Inc.", price := 201.4, change := -0.8, changePercent := -0.4, marketCap := "2.13T", pe := 44.2, volume := "31.5M", sector := "Consumer" })
  , ("TSLA", { name := "Tesla Inc.", price := 248.5, change := 8.2, changePercent := 3.41, marketCap := "792B", pe := 73.1, volume := "112.4M", sector := "Automotive" })
  , ("META", { name := "Meta Platforms", price := 524.7, change := 6.3, changePercent := 1.22, marketCap := "1.34T", pe := 26.8, volume := "14.9M", sector := "Technology" })
  , ("NVDA", { name := "NVIDIA Corp.", price := 875.4, change := 22.1, changePercent := 2.59, marketCap := "2.16T", pe := 67.3, volume := "44.7M", sector := "Semiconductors" })
  , ("JPM", { name := "JPMorgan Chase", price := 213.6, change := -1.2, changePercent := -0.56, marketCap := "613B", pe := 11.4, volume := "8.3M", sector := "Finance" })
  , ("BRK", { name := "Berkshire Hathaway", price := 424.1, change := 0.9, changePercent := 0.21, marketCap := "927B", pe := 21.2, volume := "3.1M", sector := "Finance" })
  , ("V", { name := "Visa Inc.", price := 276.3, change := 1.8, changePercent := 0.66, marketCap := "554B", pe := 30.1, volume := "6.7M", sector := "Finance" }) ]

/-- The success value of a lookup: `{ symbol: upperSym, ...stockInfo }`
together with the generated history held alongside it in the hook state. -/
structure Snapshot where
  symbol : String
  quote : Quote
deriving DecidableEq

/-- The observable state surface of the `useStockData` hook:
`data`, `history`, `loading`, `error`. -/
structure DashState where
  data : Option Snapshot
  history : List Bar
  loading : Bool
  error : Option String
deriving DecidableEq

/-- The not-found message built in `fetchData`:
`Symbol "${upperSym}" not found. Try: AAPL, MSFT, GOOGL, TSLA, NVDA`. -/
def notFoundMsg (upperSym : String) : String :=
  "Symbol \"" ++ upperSym ++ "\" not found. Try: AAPL, MSFT, GOOGL, TSLA, NVDA"

/-- `fetchData(sym)` of the `useStockData` hook, as the transformer it applies
to the hook state once the simulated latency has resolved.  A falsy (empty)
symbol short-circuits before any state write.  Otherwise: on a store miss the
thrown error is caught and the catch/finally blocks leave
`error` set, `data = null`, `history = []`, `loading = false`; on a hit the
state holds the combined snapshot and a history generated with
`basePrice = stockInfo.price * 0.85`, `days = 90`.  The latency draw does not
affect the outcome and is not modelled; `rand` feeds the generator and `now`
is today's epoch-day index. -/
def fetchData (sym : String) (rand : ℕ → ℚ) (now : ℤ) (s : DashState) : DashState :=
  if sym = "" then s
  else
    let upperSym := toUpperJS sym
    match MOCK_STOCKS.lookup upperSym with
    | none =>
        { data := none, history := [], loading := false,
          error := some (notFoundMsg upperSym) }
    | some stockInfo =>
        { data := some { symbol := upperSym, quote := stockInfo },
          history := generatePriceHistory upperSym (stockInfo.price * 0.85) 90 now rand,
          loading := false,
          error := none }

/-- One row of `processedStocks`: `{ symbol: sym, ...data }`. -/
structure Row where
  symbol : String
  name : String
  price : ℚ
  change : ℚ
  changePercent : ℚ
  marketCap : String
  pe : ℚ
  volume : String
  sector : String
deriving DecidableEq

/-- `Object.entries(MOCK_STOCKS).map(([sym, data]) => ({symbol: sym, ...data}))`. -/
def rowOf (p : String × Quote) : Row :=
  { symbol := p.1, name := p.2.name, price := p.2.price, change := p.2.change,
    changePercent := p.2.changePercent, marketCap := p.2.marketCap,
    pe := p.2.pe, volume := p.2.volume, sector := p.2.sector }

/-- The unfiltered row list of `StockTable`, in `Object.entries` (insertion) order. -/
def stockRows : List Row := MOCK_STOCKS.map rowOf

/-- The sortable columns of `StockTable` (the ones wired to `handleSort`). -/
inductive SortKey
  | price
  | changePercent
  | marketCap
  | pe
deriving DecidableEq

/-- The `sortDir` state: `"asc"` or `"desc"`. -/
inductive SortDir
  | asc
  | desc
deriving DecidableEq

/-- Digit-string value (the integer read left to right). -/
def digitsVal (cs : List Char) : ℕ :=
  cs.foldl (fun acc c => 10 * acc + (c.toNat - 48)) 0

/-- Modelled `parseFloat` restricted to the shapes it meets here: a leading
nonnegative decimal literal (`digits` optionally followed by `.digits`), any
trailing characters ignored.  Every string `parseNumeric` parses in this
program (the `marketCap` / `volume` values of `MOCK_STOCKS`) has this shape;
signs, exponents and NaN cases never occur. -/
def parseFloatQ (s : String) : ℚ :=
  let cs := s.toList
  let intPart : ℚ := digitsVal (cs.takeWhile Char.isDigit)
  match cs.dropWhile Char.isDigit with
  | '.' :: rest =>
      let fracDigits := rest.takeWhile Char.isDigit
      intPart + (digitsVal fracDigits : ℚ) / 10 ^ fracDigits.length
  | _ => intPart

/-- A field value as seen by `parseNumeric`: a JS number or a string. -/
inductive FieldVal
  | num (q : ℚ)
  | str (s : String)
deriving DecidableEq

/-- JS `String.prototype.endsWith`: suffix test. -/
def strEndsWith (s suffix : String) : Bool :=
  decide (List.IsSuffix suffix.toList s.toList)

/-- `parseNumeric(val)` of `StockTable`: numbers pass through; strings are
parsed with `parseFloat` and scaled by a `T` / `B` / `M` suffix. -/
def parseNumeric : FieldVal → ℚ
  | .num n => n
  | .str s =>
      let v := parseFloatQ s
      if strEndsWith s "T" then v * 1000000000000
      else if strEndsWith s "B" then v * 1000000000
      else if strEndsWith s "M" then v * 1000000
      else v

/-- `a[sortKey]` for the sortable columns, tagged with its JS runtime type. -/
def sortField (r : Row) : SortKey → FieldVal
  | .price => .num r.price
  | .changePercent => .num r.changePercent
  | .marketCap => .str r.marketCap
  | .pe => .num r.pe

/-- The numeric sort value `parseNumeric(a[sortKey])`. -/
def sortVal (key : SortKey) (r : Row) : ℚ := parseNumeric (sortField r key)

/-- The ordering realised by the source comparator
(`av - bv` for `"asc"`, `bv - av` for `"desc"`) under a stable sort. -/
def sortRel (key : SortKey) (dir : SortDir) (a b : Row) : Prop :=
  match dir with
  | .asc => sortVal key a ≤ sortVal key b
  | .desc => sortVal key b ≤ sortVal key a

instance (key : SortKey) (dir : SortDir) : DecidableRel (sortRel key dir) :=
  fun a b => by
    unfold sortRel
    cases dir <;> exact inferInstance

/-- `String.prototype.includes`: substring containment. -/
def strIncludes (hay needle : String) : Bool :=
  decide (List.IsInfix needle.toList hay.toList)

/-- The filtering stage of `processedStocks`: the text filter (case-insensitive
substring of symbol or name, skipped when the filter is falsy) followed by the
sector filter (skipped for the sentinel `"All"`). -/
def filteredStocks (filter sectorFilter : String) : List Row :=
  let s1 :=
    if filter = "" then stockRows
    else
      stockRows.filter fun r =>
        strIncludes (toLowerJS r.symbol) (toLowerJS filter) ||
          strIncludes (toLowerJS r.name) (toLowerJS filter)
  if sectorFilter = "All" then s1
  else s1.filter fun r => r.sector == sectorFilter

/-- `processedStocks`: filter then stable-sort by the parsed numeric sort
value.  `Array.prototype.sort` is stable, and a stable sort by a total
preorder has a unique result, here realised by insertion sort. -/
def processedStocks (filter sectorFilter : String)
    (sortKey : SortKey) (sortDir : SortDir) : List Row :=
  (filteredStocks filter sectorFilter).insertionSort (sortRel sortKey sortDir)

/-- The timeframe table of `PriceChart.filteredData`:
`frames[timeframe] || history.length` with `frames = {1W:5, 1M:22, 3M:66}`. -/
def frameCount (timeframe : String) (len : ℕ) : ℕ :=
  if timeframe = "1W" then 5
  else if timeframe = "1M" then 22
  else if timeframe = "3M" then 66
  else len

/-- `history.slice(-count)`: the last `min count l.length` elements.  JS
`slice(-count)` starts at `max(length - count, 0)`, which is exactly truncated
subtraction; for `count = 0` (only reachable here with an empty history) both
sides return the whole (empty) list. -/
def sliceLast (l : List Bar) (count : ℕ) : List Bar :=
  l.drop (l.length - count)

/-- `filteredData` of `PriceChart`: the timeframe-windowed suffix. -/
def chartProject (history : List Bar) (timeframe : String) : List Bar :=
  sliceLast history (frameCount timeframe history.length)

/-- A random stream is a sequence of `Math.random()` results: each draw lies
in `[0, 1)`. -/
def ValidRand (rand : ℕ → ℚ) : Prop := ∀ n, 0 ≤ rand n ∧ rand n < 1

/-- A concrete valid random stream (every draw is `0.5`), used to instantiate
universally quantified results at a concrete input. -/
def halfStream : ℕ → ℚ := fun _ => 1 / 2

/-- A concrete valid random stream whose second draw of each day (the one
feeding `open`) is `0.99` while all other draws are `0`; it exhibits a bar
whose `open` exceeds its `high`. -/
def openSpikeStream : ℕ → ℚ := fun n => if n % 5 = 1 then 99 / 100 else 0

/-!
## Generator lemmas
-/

theorem halfStream_valid : ValidRand halfStream := by
  intro n
  constructor <;> norm_num [halfStream]

/-- The number of bars produced by the generator loop is the number of
weekdays among the visited calendar days, independently of the price state,
the draw index and the draw values. -/
theorem genAux_length (rand : ℕ → ℚ) (now : ℤ) :
    ∀ (i : ℕ) (p : ℚ) (k : ℕ), (genAux rand now i p k).length = countWeekdays now i := by
  intro i
  induction i with
  | zero =>
      intro p k
      unfold genAux countWeekdays
      split <;> simp
  | succ i ih =>
      intro p k
      unfold genAux countWeekdays
      split
      · simp [ih]
      · simp [ih]
        omega

set_option maxHeartbeats 1600000 in
/-- Among the 8 calendar days `now - 7, …, now` there are five weekdays, plus
a sixth exactly when today's weekday value repeats as a weekday. -/
theorem countWeekdays_seven (now : ℤ) :
    5 ≤ countWeekdays now 7 ∧ countWeekdays now 7 ≤ 6 := by
  have hw : ∀ d : ℤ, (if isWeekend d then (0 : ℕ) else 1) =
      (if (d + 5) % 7 ≤ 1 then 0 else 1) := by
    intro d
    unfold isWeekend getDay
    split_ifs <;> omega
  have h : countWeekdays now 7 = (if (now - 7 + 5) % 7 ≤ 1 then 0 else 1) +
      ((if (now - 6 + 5) % 7 ≤ 1 then 0 else 1) +
      ((if (now - 5 + 5) % 7 ≤ 1 then 0 else 1) +
      ((if (now - 4 + 5) % 7 ≤ 1 then 0 else 1) +
      ((if (now - 3 + 5) % 7 ≤ 1 then 0 else 1) +
      ((if (now - 2 + 5) % 7 ≤ 1 then 0 else 1) +
      ((if (now - 1 + 5) % 7 ≤ 1 then 0 else 1) +
      (if (now + 5) % 7 ≤ 1 then 0 else 1))))))) := by
    norm_num [countWeekdays, hw]
  rw [h]
  split_ifs <;> omega

/-- If some visited day is a weekday, the generator output is non-empty. -/
theorem countWeekdays_pos_of_weekday (now : ℤ) :
    ∀ (i : ℕ) (j : ℕ), j ≤ i → ¬ isWeekend (now - (j : ℤ)) → 0 < countWeekdays now i := by
  intro i
  induction i with
  | zero =>
      intro j hj hw
      interval_cases j
      unfold countWeekdays
      simp only [Nat.cast_zero, sub_zero] at hw
      simp [hw]
  | succ i ih =>
      intro j hj hw
      unfold countWeekdays
      rcases Nat.lt_or_ge j (i + 1) with h | h
      · have := ih j (by omega) hw
        omega
      · have hji : j = i + 1 := by omega
        subst hji
        have : ¬ isWeekend (now - (i + 1 : ℤ)) := by
          simpa [Nat.cast_add, Nat.cast_one] using hw
        simp [this]

/-- Any window of at least 7 visited days contains a weekday, so the
generated history is non-empty whenever `days ≥ 6`. -/
theorem countWeekdays_pos (now : ℤ) (i : ℕ) (hi : 6 ≤ i) : 0 < countWeekdays now i := by
  refine countWeekdays_pos_of_weekday now i ((now + 1) % 7).toNat ?_ ?_
  · omega
  · unfold isWeekend getDay
    omega

/-- Rounding to two decimals is monotone, so the raw `low ≤ price ≤ high`
ordering survives `toFixed(2)`. -/
theorem round2_mono {x y : ℚ} (h : x ≤ y) : round2 x ≤ round2 y := by
  unfold round2
  have hr : round (x * 100) ≤ round (y * 100) := by
    rw [round_eq, round_eq]
    exact Int.floor_le_floor (by linarith)
  have hc : ((round (x * 100) : ℤ) : ℚ) ≤ ((round (y * 100) : ℤ) : ℚ) := by
    exact_mod_cast hr
  linarith

/-- The walk multiplier `1 + (r - 0.48) * 0.06` is positive for any draw
`r ∈ [0, 1)`, so a nonnegative price stays nonnegative. -/
theorem step_nonneg {p r : ℚ} (hp : 0 ≤ p) (hr0 : 0 ≤ r) :
    0 ≤ p * (1 + dailyReturnOf r) := by
  unfold dailyReturnOf
  nlinarith

/-- Volume bounds for one draw `r ∈ [0, 1)`:
`Math.floor(r * 80000000 + 20000000)` lies in `[20000000, 99999999]`. -/
theorem volumeOf_bounds {r : ℚ} (hr0 : 0 ≤ r) (hr1 : r < 1) :
    20000000 ≤ volumeOf r ∧ volumeOf r ≤ 99999999 := by
  unfold volumeOf
  have hlo : (20000000 : ℤ) ≤ ⌊r * 80000000 + 20000000⌋ := by
    rw [Int.le_floor]
    push_cast
    nlinarith
  have hhi : ⌊r * 80000000 + 20000000⌋ < 100000000 := by
    rw [Int.floor_lt]
    push_cast
    nlinarith
  omega

/-- The OHLC bounds of one pushed bar: for a nonnegative walk value and valid
draws, the stored (rounded) fields satisfy `low ≤ price ≤ high`. -/
theorem mkBar_ohlc (rand : ℕ → ℚ) (hr : ValidRand rand) (date : ℤ) {p : ℚ}
    (hp : 0 ≤ p) (k : ℕ) :
    (mkBar rand date p k).low ≤ (mkBar rand date p k).price ∧
      (mkBar rand date p k).price ≤ (mkBar rand date p k).high := by
  unfold mkBar
  refine ⟨round2_mono ?_, round2_mono ?_⟩
  · nlinarith [(hr (k + 3)).1, (hr (k + 3)).2]
  · nlinarith [(hr (k + 2)).1, (hr (k + 2)).2]

/-- Every generated bar's volume is in `[20000000, 99999999]` — regardless of
the price state. -/
theorem genAux_volume (rand : ℕ → ℚ) (hr : ValidRand rand) (now : ℤ) :
    ∀ (i : ℕ) (p : ℚ) (k : ℕ), ∀ b ∈ genAux rand now i p k,
      20000000 ≤ b.volume ∧ b.volume ≤ 99999999 := by
  intro i
  induction i with
  | zero =>
      intro p k b hb
      unfold genAux at hb
      split at hb
      · simp at hb
      · simp only [List.mem_singleton] at hb
        subst hb
        exact volumeOf_bounds (hr (k + 4)).1 (hr (k + 4)).2
  | succ i ih =>
      intro p k b hb
      unfold genAux at hb
      split at hb
      · exact ih p k b hb
      · rcases List.mem_cons.mp hb with hb | hb
        · subst hb
          exact volumeOf_bounds (hr (k + 4)).1 (hr (k + 4)).2
        · exact ih _ (k + 5) b hb

/-- Every bar produced from a nonnegative running price satisfies
`low ≤ price ≤ high`. -/
theorem genAux_ohlc (rand : ℕ → ℚ) (hr : ValidRand rand) (now : ℤ) :
    ∀ (i : ℕ) (p : ℚ) (k : ℕ), 0 ≤ p →
      ∀ b ∈ genAux rand now i p k, b.low ≤ b.price ∧ b.price ≤ b.high := by
  intro i
  induction i with
  | zero =>
      intro p k hp b hb
      unfold genAux at hb
      split at hb
      · simp at hb
      · simp only [List.mem_singleton] at hb
        subst hb
        exact mkBar_ohlc rand hr now (step_nonneg hp (hr k).1) k
  | succ i ih =>
      intro p k hp b hb
      unfold genAux at hb
      split at hb
      · exact ih p k hp b hb
      · rcases List.mem_cons.mp hb with hb | hb
        · subst hb
          exact mkBar_ohlc rand hr (now - (i + 1 : ℤ)) (step_nonneg hp (hr k).1) k
        · exact ih _ (k + 5) (step_nonneg hp (hr k).1) b hb

/-- Dates of the generated bars: all are weekdays, lie in the visited window
`[now - i, now]`, and are strictly increasing along the list. -/
theorem genAux_dates (rand : ℕ → ℚ) (now : ℤ) :
    ∀ (i : ℕ) (p : ℚ) (k : ℕ),
      (genAux rand now i p k).Pairwise (fun a b => a.date < b.date) ∧
      ∀ b ∈ genAux rand now i p k,
        ¬ isWeekend b.date ∧ now - i ≤ b.date ∧ b.date ≤ now := by
  intro i
  induction i with
  | zero =>
      intro p k
      unfold genAux
      by_cases h : isWeekend now
      · simp [h]
      · rw [if_neg h]
        refine ⟨List.pairwise_singleton _ _, ?_⟩
        intro b hb
        simp only [List.mem_singleton] at hb
        subst hb
        exact ⟨h, by simp [mkBar], by simp [mkBar]⟩
  | succ i ih =>
      intro p k
      unfold genAux
      by_cases h : isWeekend (now - (i + 1 : ℤ))
      · rw [if_pos h]
        refine ⟨(ih p k).1, ?_⟩
        intro b hb
        have := (ih p k).2 b hb
        refine ⟨this.1, by push_cast; omega, this.2.2⟩
      · rw [if_neg h]
        set p2 := p * (1 + dailyReturnOf (rand k)) with hp2
        refine ⟨?_, ?_⟩
        · refine List.pairwise_cons.mpr ⟨?_, (ih p2 (k + 5)).1⟩
          intro b hb
          have hw := (ih p2 (k + 5)).2 b hb
          have hd : (mkBar rand (now - (i + 1 : ℤ)) p2 k).date = now - (i + 1 : ℤ) := rfl
          rw [hd]
          have := hw.2.1
          push_cast at this ⊢
          omega
        · intro b hb
          rcases List.mem_cons.mp hb with hb | hb
          · subst hb
            refine ⟨h, ?_, ?_⟩ <;> simp [mkBar] <;> omega
          · have := (ih p2 (k + 5)).2 b hb
            refine ⟨this.1, by push_cast; omega, this.2.2⟩

/-- The character list of a not-found message decomposes around the offending
symbol. -/
theorem notFoundMsg_toList (u : String) :
    (notFoundMsg u).toList = "Symbol \"".toList ++ u.toList ++
      "\" not found. Try: AAPL, MSFT, GOOGL, TSLA, NVDA".toList := by
  unfold notFoundMsg
  simp [String.toList, String.data_append]

/-- An infix of a list is an infix of any left-extension of it. -/
theorem isInfix_append_left {α : Type} {x c : List α} (l : List α)
    (h : List.IsInfix x c) : List.IsInfix x (l ++ c) := by
  obtain ⟨s, t, rfl⟩ := h
  exact ⟨l ++ s, t, by simp⟩

instance (key : SortKey) (dir : SortDir) : IsTotal Row (sortRel key dir) where
  total a b := by
    cases dir
    · exact le_total _ _
    · exact le_total _ _

instance (key : SortKey) (dir : SortDir) : IsTrans Row (sortRel key dir) where
  trans a b c hab hbc := by
    cases dir
    · exact le_trans hab hbc
    · exact le_trans hbc hab

theorem charToNat_d0 : Char.toNat '0' = 48 := by decide
theorem charToNat_d1 : Char.toNat '1' = 49 := by decide
theorem charToNat_d2 : Char.toNat '2' = 50 := by decide
theorem charToNat_d3 : Char.toNat '3' = 51 := by decide
theorem charToNat_d4 : Char.toNat '4' = 52 := by decide
theorem charToNat_d5 : Char.toNat '5' = 53 := by decide
theorem charToNat_d6 : Char.toNat '6' = 54 := by decide
theorem charToNat_d7 : Char.toNat '7' = 55 := by decide
theorem charToNat_d8 : Char.toNat '8' = 56 := by decide
theorem charToNat_d9 : Char.toNat '9' = 57 := by decide

/-!
## Claims
-/

/-- C9.  For empty (falsy) symbol input, the lookup operation is a no-op: it
returns immediately and leaves every field of the observable state surface —
loading flag, error message, data snapshot, and history — unchanged. -/
theorem fetchData_empty_noop (rand : ℕ → ℚ) (now : ℤ) (s : DashState) :
    fetchData "" rand now s = s ∧
    (fetchData "" rand now s).data = s.data ∧
    (fetchData "" rand now s).history = s.history ∧
    (fetchData "" rand now s).loading = s.loading ∧
    (fetchData "" rand now s).error = s.error :=
  ⟨rfl, rfl, rfl, rfl, rfl⟩

/-- C5 (counterexample).  The claim that `generate(sym, 100, 7)` returns
between 3 and 5 entries for every current date fails: when today is epoch day
4 (Monday, 1970-01-05), the loop `for i = 7; i ≥ 0; i--` visits 8 calendar
days containing 6 weekdays, so 6 entries are returned. -/
theorem generate_week_count_six :
    (generatePriceHistory "AAPL" 100 7 4 halfStream).length = 6 ∧
    ¬ (3 ≤ (generatePriceHistory "AAPL" 100 7 4 halfStream).length ∧
        (generatePriceHistory "AAPL" 100 7 4 halfStream).length ≤ 5) :=
  ⟨by decide, by decide⟩

/-- C5 (amended).  For every choice of randomness and every current date,
`generate(sym, 100, 7)` returns between 5 and 6 entries (the weekday count of
the 8 visited calendar days): never 0 and never 7. -/
theorem generate_week_count_bounds (sym : String) (basePrice : ℚ) (now : ℤ)
    (rand : ℕ → ℚ) :
    5 ≤ (generatePriceHistory sym basePrice 7 now rand).length ∧
    (generatePriceHistory sym basePrice 7 now rand).length ≤ 6 ∧
    (generatePriceHistory sym basePrice 7 now rand).length ≠ 0 ∧
    (generatePriceHistory sym basePrice 7 now rand).length ≠ 7 := by
  unfold generatePriceHistory
  rw [genAux_length]
  have h := countWeekdays_seven now
  exact ⟨h.1, h.2, by omega, by omega⟩

/-- C6.  For every symbol, basePrice, dayCount, randomness, and current date,
the generator's output is chronologically ordered oldest to newest (each
entry's underlying date strictly precedes the next entry's — stated both as
an adjacent chain and as the stronger pairwise ordering) and every entry's
date is a weekday (no Saturday or Sunday appears). -/
theorem generate_chronological_weekdays (sym : String) (basePrice : ℚ)
    (days : ℕ) (now : ℤ) (rand : ℕ → ℚ) :
    (generatePriceHistory sym basePrice days now rand).Pairwise
      (fun a b => a.date < b.date) ∧
    (generatePriceHistory sym basePrice days now rand).Chain'
      (fun a b => a.date < b.date) ∧
    (generatePriceHistory sym basePrice days now rand).Forall
      (fun b => ¬ isWeekend b.date) := by
  unfold generatePriceHistory
  have h := genAux_dates rand now days basePrice 0
  exact ⟨h.1, h.1.chain', List.forall_iff_forall_mem.mpr fun b hb => (h.2 b hb).1⟩

/-- C1.  For every symbol text whose uppercased form is a key of MOCK_STOCKS,
the lookup resolves to a snapshot whose `symbol` is the uppercased input,
whose quote fields are the stored quote's fields, and whose history is the
price-history generator's output at `basePrice = quote.price × 0.85` and
`dayCount = 90`, which is non-empty. -/
theorem fetchData_found (sym : String) (rand : ℕ → ℚ) (now : ℤ)
    (s : DashState) (q : Quote)
    (hq : List.lookup (toUpperJS sym) MOCK_STOCKS = some q) :
    fetchData sym rand now s =
      { data := some { symbol := toUpperJS sym, quote := q },
        history := generatePriceHistory (toUpperJS sym) (q.price * 0.85) 90 now rand,
        loading := false, error := none } ∧
    generatePriceHistory (toUpperJS sym) (q.price * 0.85) 90 now rand ≠ [] := by
  have hne : sym ≠ "" := by
    intro h
    subst h
    have h0 : List.lookup (toUpperJS "") MOCK_STOCKS = (none : Option Quote) := by decide
    rw [h0] at hq
    exact Option.noConfusion hq
  constructor
  · unfold fetchData
    rw [if_neg hne]
    simp only [hq]
  · apply List.ne_nil_of_length_pos
    unfold generatePriceHistory
    rw [genAux_length]
    exact countWeekdays_pos now 90 (by norm_num)

/-- The AAPL quote record, transcribed from `MOCK_STOCKS`, used as the
concrete instantiation of the successful-lookup theorem. -/
def aaplQuote : Quote :=
  { name := "Apple Inc.", price := 189.3, change := 1.24, changePercent := 0.66,
    marketCap := "2.94T", pe := 29.4, volume := "58.2M", sector := "Technology" }

/-- C1 witness: the lookup of `"aapl"` resolves to the AAPL snapshot with a
non-empty 90-day history. -/
theorem fetchData_found_witness :
    fetchData "aapl" halfStream 0 ⟨none, [], false, none⟩ =
      { data := some { symbol := toUpperJS "aapl", quote := aaplQuote },
        history := generatePriceHistory (toUpperJS "aapl") (aaplQuote.price * 0.85) 90 0 halfStream,
        loading := false, error := none } ∧
    generatePriceHistory (toUpperJS "aapl") (aaplQuote.price * 0.85) 90 0 halfStream ≠ [] :=
  fetchData_found "aapl" halfStream 0 ⟨none, [], false, none⟩ aaplQuote (by rfl)

/-- C2.  For every non-empty symbol text whose uppercased form is absent from
MOCK_STOCKS, the lookup resolves to the not-found failure and to no snapshot:
the state ends with no data, empty history, and an error message that names
the offending uppercased symbol and suggests the example valid symbols AAPL,
MSFT, GOOGL, TSLA, NVDA. -/
theorem fetchData_notFound (sym : String) (rand : ℕ → ℚ) (now : ℤ)
    (s : DashState) (hne : sym ≠ "")
    (hq : List.lookup (toUpperJS sym) MOCK_STOCKS = none) :
    fetchData sym rand now s =
      { data := none, history := [], loading := false,
        error := some (notFoundMsg (toUpperJS sym)) } ∧
    List.IsInfix (toUpperJS sym).toList (notFoundMsg (toUpperJS sym)).toList ∧
    ∀ ex ∈ (["AAPL", "MSFT", "GOOGL", "TSLA", "NVDA"] : List String),
      List.IsInfix ex.toList (notFoundMsg (toUpperJS sym)).toList := by
  refine ⟨?_, ?_, ?_⟩
  · unfold fetchData
    rw [if_neg hne]
    simp only [hq]
  · exact ⟨"Symbol \"".toList,
      "\" not found. Try: AAPL, MSFT, GOOGL, TSLA, NVDA".toList,
      by rw [notFoundMsg_toList]⟩
  · intro ex hex
    rw [notFoundMsg_toList, List.append_assoc]
    refine isInfix_append_left _ (isInfix_append_left _ ?_)
    fin_cases hex <;> decide

/-- C2 witness: the lookup of `"zzzz"` fails with the message naming
`"ZZZZ"`. -/
theorem fetchData_notFound_witness :
    fetchData "zzzz" halfStream 0 ⟨none, [], false, none⟩ =
      { data := none, history := [], loading := false,
        error := some (notFoundMsg (toUpperJS "zzzz")) } :=
  (fetchData_notFound "zzzz" halfStream 0 ⟨none, [], false, none⟩
    (by decide) (by decide)).1

/-- C3.  For every history sequence and every timeframe value, the chart
projection is a suffix of the history (the last N entries in original order),
where N is 5 for "1W", 22 for "1M", 66 for "3M", and the full length for any
other value; in particular projecting "1W" yields `min 5 (length history)`
entries. -/
theorem chartProject_suffix (history : List Bar) (tf : String) :
    List.IsSuffix (chartProject history tf) history ∧
    (chartProject history tf).length =
      min (frameCount tf history.length) history.length ∧
    frameCount "1W" history.length = 5 ∧
    frameCount "1M" history.length = 22 ∧
    frameCount "3M" history.length = 66 ∧
    (tf ≠ "1W" → tf ≠ "1M" → tf ≠ "3M" →
      frameCount tf history.length = history.length) ∧
    (chartProject history "1W").length = min 5 history.length := by
  refine ⟨List.drop_suffix _ _, ?_, rfl, rfl, rfl, ?_, ?_⟩
  · unfold chartProject sliceLast
    rw [List.length_drop]
    omega
  · intro h1 h2 h3
    unfold frameCount
    rw [if_neg h1, if_neg h2, if_neg h3]
  · show (sliceLast history (frameCount "1W" history.length)).length = _
    unfold sliceLast frameCount
    rw [if_pos rfl, List.length_drop]
    omega

/-- C3 witness: at the concrete input `([], "ALL")` the untabulated timeframe
falls back to the full length. -/
theorem chartProject_suffix_witness :
    frameCount "ALL" ([] : List Bar).length = ([] : List Bar).length :=
  (chartProject_suffix [] "ALL").2.2.2.2.2.1 (by decide) (by decide) (by decide)

/-- C4.  For every view state, the table projection is a permutation of the
rows surviving the filters, sorted by the parsed numeric value of the sort
key in the requested direction; `parseNumeric` passes numbers through and
scales suffixed strings by 10^12 (T), 10^9 (B) or 10^6 (M); and sorting the
unfiltered store by marketCap descending places MSFT before AAPL before
TSLA (here: the full descending order by true numeric market cap). -/
theorem table_sorted_by_parsed_numeric (filter sector : String)
    (key : SortKey) (dir : SortDir) :
    List.Pairwise (sortRel key dir) (processedStocks filter sector key dir) ∧
    List.Perm (processedStocks filter sector key dir)
      (filteredStocks filter sector) ∧
    (∀ q : ℚ, parseNumeric (.num q) = q) ∧
    parseNumeric (.str "2.94T") = 2.94 * 1000000000000 ∧
    parseNumeric (.str "792B") = 792 * 1000000000 ∧
    parseNumeric (.str "58.2M") = 58.2 * 1000000 ∧
    (processedStocks "" "All" .marketCap .desc).map (fun r => r.symbol) =
      ["MSFT", "AAPL", "GOOGL", "NVDA", "AMZN", "META", "BRK", "TSLA", "JPM", "V"] := by
  refine ⟨List.sorted_insertionSort _ _, List.perm_insertionSort _ _,
    fun q => rfl, ?_, ?_, ?_, ?_⟩
  · norm_num +decide [parseNumeric, parseFloatQ, digitsVal, strEndsWith,
      String.toList, List.takeWhile_cons, List.dropWhile_cons,
      charToNat_d2, charToNat_d9, charToNat_d4]
  · norm_num +decide [parseNumeric, parseFloatQ, digitsVal, strEndsWith,
      String.toList, List.takeWhile_cons, List.dropWhile_cons,
      charToNat_d7, charToNat_d9, charToNat_d2]
  · norm_num +decide [parseNumeric, parseFloatQ, digitsVal, strEndsWith,
      String.toList, List.takeWhile_cons, List.dropWhile_cons,
      charToNat_d5, charToNat_d8, charToNat_d2]
  · norm_num +decide [processedStocks, filteredStocks, stockRows, MOCK_STOCKS,
      rowOf, List.insertionSort, List.orderedInsert, sortRel, sortVal,
      sortField, parseNumeric, parseFloatQ, digitsVal, strEndsWith,
      String.toList, List.takeWhile_cons, List.dropWhile_cons, charToNat_d0,
      charToNat_d1, charToNat_d2, charToNat_d3, charToNat_d4, charToNat_d5,
      charToNat_d6, charToNat_d7, charToNat_d8, charToNat_d9]

/-- C8.  Projecting the table with default/unset filters (empty text filter
and sector filter "All") returns every entry of the store — a permutation of
the full row list — with row count equal to the store's symbol count, 10. -/
theorem table_default_filters_roundtrip (key : SortKey) (dir : SortDir) :
    List.Perm (processedStocks "" "All" key dir) stockRows ∧
    (processedStocks "" "All" key dir).length = stockRows.length ∧
    stockRows.length = MOCK_STOCKS.length ∧
    MOCK_STOCKS.length = 10 := by
  have hf : filteredStocks "" "All" = stockRows := rfl
  have hperm : List.Perm (processedStocks "" "All" key dir) stockRows := by
    rw [← hf]
    exact List.perm_insertionSort _ _
  exact ⟨hperm, hperm.length_eq, by decide, by decide⟩

/-- C7 (counterexample).  The volume 100,000,000 is never realized: every
draw satisfies `r < 1`, so `Math.floor(r * 80000000 + 20000000)` is at most
99,999,999. -/
theorem volume_max_unrealized :
    ¬ ∃ r : ℚ, 0 ≤ r ∧ r < 1 ∧ volumeOf r = 100000000 := by
  rintro ⟨r, h0, h1, hv⟩
  unfold volumeOf at hv
  have hhi : ⌊r * 80000000 + 20000000⌋ < 100000000 := by
    rw [Int.floor_lt]
    push_cast
    nlinarith
  omega

/-- C7 (amended).  Every generated bar's volume is a uniform integer in
[20,000,000, 99,999,999]: the bounds always hold, and every integer in that
closed range — not including 100,000,000 — is realized by some draw. -/
theorem volume_bounds_and_realized :
    (∀ (sym : String) (basePrice : ℚ) (days : ℕ) (now : ℤ) (rand : ℕ → ℚ),
      ValidRand rand →
        (generatePriceHistory sym basePrice days now rand).Forall
          (fun b => 20000000 ≤ b.volume ∧ b.volume ≤ 99999999)) ∧
    (∀ n : ℕ, 20000000 ≤ n → n ≤ 99999999 →
      ∃ r : ℚ, 0 ≤ r ∧ r < 1 ∧ volumeOf r = n) := by
  constructor
  · intro sym basePrice days now rand hr
    unfold generatePriceHistory
    exact List.forall_iff_forall_mem.mpr (genAux_volume rand hr now days basePrice 0)
  · intro n h1 h2
    refine ⟨((n : ℚ) - 20000000) / 80000000, ?_, ?_, ?_⟩
    · apply div_nonneg _ (by norm_num)
      have : (20000000 : ℚ) ≤ (n : ℚ) := by exact_mod_cast h1
      linarith
    · rw [div_lt_one (by norm_num)]
      have : (n : ℚ) ≤ 99999999 := by exact_mod_cast h2
      linarith
    · unfold volumeOf
      have harg : ((n : ℚ) - 20000000) / 80000000 * 80000000 + 20000000 = (n : ℚ) := by
        field_simp
      rw [harg]
      have hfl : ⌊(n : ℚ)⌋ = (n : ℤ) := Int.floor_natCast n
      rw [hfl]
      omega

/-- C7 witness: the lower/upper volume bounds hold at a concrete generated
history. -/
theorem volume_bounds_and_realized_witness :
    List.Forall (fun b => 20000000 ≤ b.volume ∧ b.volume ≤ 99999999)
      (generatePriceHistory "NVDA" 100 3 4 halfStream) :=
  volume_bounds_and_realized.1 "NVDA" 100 3 4 halfStream halfStream_valid

/-- C10.  For every generated daily bar, `low ≤ price ≤ high` holds on the
stored (rounded to 2 decimals) fields — high is the walk value times a factor
at least 1, low times a factor at most 1, and rounding is monotone — while
the `open` field can fall outside the interval: a concrete draw stream
produces a bar whose `open` exceeds its `high`. -/
theorem ohlc_low_price_high :
    (∀ (sym : String) (basePrice : ℚ) (days : ℕ) (now : ℤ) (rand : ℕ → ℚ),
      ValidRand rand → 0 ≤ basePrice →
        (generatePriceHistory sym basePrice days now rand).Forall
          (fun b => b.low ≤ b.price ∧ b.price ≤ b.high)) ∧
    ((generatePriceHistory "AAPL" 100 0 4 openSpikeStream).headD
        ⟨0, 0, 0, 0, 0, 0⟩).high <
      ((generatePriceHistory "AAPL" 100 0 4 openSpikeStream).headD
        ⟨0, 0, 0, 0, 0, 0⟩).open_ := by
  constructor
  · intro sym basePrice days now rand hr hbp
    unfold generatePriceHistory
    exact List.forall_iff_forall_mem.mpr (genAux_ohlc rand hr now days basePrice 0 hbp)
  · norm_num [generatePriceHistory, genAux, isWeekend, getDay, openSpikeStream,
      mkBar, dailyReturnOf, round2, round_eq, volumeOf]

/-- C10 witness: the `low ≤ price ≤ high` invariant at a concrete generated
history. -/
theorem ohlc_low_price_high_witness :
    List.Forall (fun b => b.low ≤ b.price ∧ b.price ≤ b.high)
      (generatePriceHistory "TSLA" 100 3 4 halfStream) :=
  ohlc_low_price_high.1 "TSLA" 100 3 4 halfStream halfStream_valid (by norm_num)

end StockDashboard
